import Mathlib

/-!
Verification development for the YouCube server (`src/youcube/youcube.py`,
`src/youcube/yc_download.py`).

The delivery engine is embedded shallowly:

* JSON request envelopes are association lists of `JValue`s; `Message.get`
  mirrors Python's `dict.get` (a missing key and a JSON `null` both give
  `None` in Python, modelled by `JValue.null`).
* The filesystem is a map from path to optional contents (`AFS` for binary
  artifacts, `VFS` for text artifacts).  Opening a missing file raises
  `FileNotFoundError` in Python; an escaped exception is modelled by
  `Except.error`.
* Handlers additionally return the list of cache-store entries they refreshed
  (`request.app.shared_ctx.data[...] = datetime.now()`) and the list of file
  paths they opened, so that access-control and cache-touch properties can be
  stated.
* The cache-cleaner sweep (`data_cache_cleaner`) is embedded as a step
  function over an explicit state: the entry map, the file states on disk and
  the files removed so far.  A delete that raises is an `Except.error`; the
  source catches only `KeyboardInterrupt`.

Functions of `yc_utils.py` are not included in the repository snapshot; they
are modelled from the specification and marked as such in their doc comments.
-/

namespace YouCube

/-- JSON values as they arrive after `json.loads`.  `null` also stands for a
missing key, matching Python's `dict.get` returning `None` in both cases. -/
inductive JValue where
  | null : JValue
  | bool : Bool → JValue
  | int : Int → JValue
  | str : String → JValue
  | list : List JValue → JValue

/-- A decoded request envelope: a JSON object as an association list. -/
def Message := List (String × JValue)

/-- `message.get(key)`: the value at `key`, or Python `None` (here `.null`)
when the key is absent. -/
def Message.get (m : Message) (k : String) : JValue :=
  match m.lookup k with
  | some v => v
  | none => JValue.null

/-- A response envelope (a JSON object), as built by the handlers. -/
def Resp := List (String × JValue)

/-- The Python classes used in the handlers' `isinstance` checks. -/
inductive PyType where
  | pyInt : PyType
  | pyStr : PyType

/-- `__class_or_tuple.__name__` for the two classes used. -/
def PyType.name : PyType → String
  | PyType.pyInt => "int"
  | PyType.pyStr => "str"

/-- Python's `isinstance` on decoded JSON values.  A Python `bool` is a
subclass of `int`, so a JSON boolean passes the `int` check. -/
def isinstance : JValue → PyType → Bool
  | JValue.int _, PyType.pyInt => true
  | JValue.bool _, PyType.pyInt => true
  | JValue.str _, PyType.pyStr => true
  | _, _ => false

/-- The error envelope built by `assert_resp` for a missing or mis-typed
field. -/
def fieldError (field type_name : String) : Resp :=
  [("action", JValue.str "error"),
   ("message", JValue.str (field ++ " must be a " ++ type_name))]

/-- `assert_resp(__obj_name, __obj, __class_or_tuple)`: `None` when the value
has the expected type, otherwise the error dict naming field and type. -/
def assert_resp (name : String) (v : JValue) (ty : PyType) : Option Resp :=
  if isinstance v ty then none
  else some (fieldError name ty.name)

/-- The Python `int` value of a decoded JSON value, when `isinstance(·, int)`
holds (`True`/`False` are the ints `1`/`0`). -/
def JValue.asInt : JValue → Option Int
  | JValue.int n => some n
  | JValue.bool b => some (if b then 1 else 0)
  | _ => none

/-- The Python `str` value of a decoded JSON value, when it is a string. -/
def JValue.asStr : JValue → Option String
  | JValue.str s => some s
  | _ => none

/-- one dfpwm chunk is 16 bits -/
def CHUNK_SIZE : Nat := 16

/-- `CHUNKS_AT_ONCE = CHUNK_SIZE * 256`: the byte size of one audio page. -/
def CHUNKS_AT_ONCE : Nat := CHUNK_SIZE * 256

/-- `FRAMES_AT_ONCE`: the number of frame lines per video page. -/
def FRAMES_AT_ONCE : Nat := 10

/-- Stand-in for the absolute data directory
`join(dirname(abspath(__file__)), "data")` of `yc_download.py`. -/
def DATA_FOLDER : String := "data"

/-- `os.path.join` for the one folder/filename pattern used here. -/
def join (a b : String) : String := a ++ "/" ++ b

/-- Modelled from the spec: `yc_utils.is_save` is not included under `src/`.
The spec's safe-identifier policy rejects any media id containing
path-traversal or non-allowed characters; the allowed id shape is taken as
alphanumerics plus `-` and `_`. -/
def is_save (media_id : String) : Bool :=
  media_id.data.all (fun c => c.isAlphanum || c == '-' || c == '_')

/-- Modelled from the spec: `yc_utils.get_audio_name` is not included under
`src/`.  The spec's end-to-end scenario names the audio artifact for media id
`abc` as `abc.dfpwm`. -/
def get_audio_name (media_id : String) : String := media_id ++ ".dfpwm"

/-- Modelled from the spec: `yc_utils.get_video_name` is not included under
`src/`.  The spec's end-to-end scenario names the video artifact for media id
`abc` at 200x150 as `abc_200_150.32vid`. -/
def get_video_name (media_id : String) (width height : Int) : String :=
  media_id ++ "_" ++ toString width ++ "_" ++ toString height ++ ".32vid"

/-- Modelled from the spec: `yc_utils.cap_width_and_height` is not included
under `src/`.  The spec clamps `(width, height)` to a supported maximum
bound; the exact bound is an open configuration constant, fixed here. -/
def cap_width_and_height (width height : Int) : Int × Int :=
  (min width 656, min height 368)

/-- Errors a file operation can raise; an escaped Python exception. -/
inductive FsError where
  | fileNotFound : FsError
  | negativeSeek : FsError
  deriving DecidableEq

/-- Binary files on disk: path to contents (bytes). -/
def AFS := String → Option (List Nat)

/-- Text files on disk: path to contents (characters). -/
def VFS := String → Option (List Char)

/-- `getchunk(media_file, chunkindex)`: open the file in `rb` mode (raises
`FileNotFoundError` when absent), `seek(chunkindex * CHUNKS_AT_ONCE)` (raises
on a negative offset), `read(CHUNKS_AT_ONCE)` — a short or empty result past
end-of-file. -/
def getchunk (fs : AFS) (media_file : String) (chunkindex : Int) :
    Except FsError (List Nat) :=
  match fs media_file with
  | none => Except.error FsError.fileNotFound
  | some bytes =>
    if chunkindex < 0 then Except.error FsError.negativeSeek
    else Except.ok ((bytes.drop (chunkindex.toNat * CHUNKS_AT_ONCE)).take CHUNKS_AT_ONCE)

/-- One `file.readline()`: the characters up to and including the first
newline (or up to end-of-file), paired with the rest of the file. -/
def readline1 : List Char → List Char × List Char
  | [] => ([], [])
  | c :: rest =>
    if c = '\n' then ([c], rest)
    else
      let p := readline1 rest
      (c :: p.1, p.2)

/-- The loop body of `get_vid`: `FRAMES_AT_ONCE` times, read a line and strip
its last character (`(await file.readline())[:-1]`). -/
def readLines : List Char → Nat → List String
  | _, 0 => []
  | cs, Nat.succ n =>
    let p := readline1 cs
    String.mk p.1.dropLast :: readLines p.2 n

/-- `get_vid(vid_file, tracker)`: open the text file (raises when absent),
`seek(tracker)`, then read `FRAMES_AT_ONCE` lines, each with the final
character removed. -/
def get_vid (fs : VFS) (vid_file : String) (tracker : Int) :
    Except FsError (List String) :=
  match fs vid_file with
  | none => Except.error FsError.fileNotFound
  | some cs =>
    if tracker < 0 then Except.error FsError.negativeSeek
    else Except.ok (readLines (cs.drop tracker.toNat) FRAMES_AT_ONCE)

/-- The base64 alphabet, for `b64encode`. -/
def b64Table : List Char :=
  "ABCDEFGHIJKLMNOPQRSTUVWXYZabcdefghijklmnopqrstuvwxyz0123456789+/".data

/-- One base64 digit. -/
def b64char (n : Nat) : Char := b64Table.getD n 'A'

/-- `b64encode(chunk).decode("ascii")` (RFC 4648, with padding). -/
def b64encode : List Nat → String
  | [] => ""
  | [b1] =>
    String.mk [b64char (b1 / 4), b64char (b1 % 4 * 16), '=', '=']
  | [b1, b2] =>
    String.mk [b64char (b1 / 4), b64char (b1 % 4 * 16 + b2 / 16),
      b64char (b2 % 16 * 4), '=']
  | b1 :: b2 :: b3 :: rest =>
    String.mk [b64char (b1 / 4), b64char (b1 % 4 * 16 + b2 / 16),
      b64char (b2 % 16 * 4 + b3 / 64), b64char (b3 % 64)] ++ b64encode rest

/-- The side effects of one handler call: the cache-store entries refreshed
(`shared_ctx.data[file_name] = datetime.now()`) and the file paths opened. -/
structure ActionEffects where
  touched : List String
  reads : List String

/-- A handler call's outcome: the returned envelope, or an escaped exception
(`Except.error`) — `wshandler` has no `try` around the action call — plus the
side effects that happened before the handler finished. -/
structure ActionOutcome where
  result : Except FsError Resp
  effects : ActionEffects

/-- The `"You dare not use special Characters"` error envelope. -/
def specialCharsError : Resp :=
  [("action", JValue.str "error"),
   ("message", JValue.str "You dare not use special Characters")]

/-- `Actions.get_chunk(message, _unused, request)`: validate `chunkindex` and
`id`, check `is_save`, refresh the cache entry, then read the chunk and
answer `{action:"chunk", chunk:<base64>}`. -/
def Actions.get_chunk (message : Message) (fs : AFS) : ActionOutcome :=
  match assert_resp "chunkindex" (message.get "chunkindex") PyType.pyInt with
  | some err => ⟨Except.ok err, ⟨[], []⟩⟩
  | none =>
  match assert_resp "id" (message.get "id") PyType.pyStr with
  | some err => ⟨Except.ok err, ⟨[], []⟩⟩
  | none =>
  match (message.get "id").asStr with
  | some media_id =>
    if is_save media_id then
      let file_name := get_audio_name media_id
      let file := join DATA_FOLDER file_name
      match (message.get "chunkindex").asInt with
      | some chunkindex =>
        match getchunk fs file chunkindex with
        | Except.ok chunk =>
          ⟨Except.ok [("action", JValue.str "chunk"),
             ("chunk", JValue.str (b64encode chunk))],
           ⟨[file_name], [file]⟩⟩
        | Except.error e => ⟨Except.error e, ⟨[file_name], [file]⟩⟩
      | none =>
        ⟨Except.ok [("action", JValue.str "error"),
           ("message", JValue.str "Invalid chunk index")],
         ⟨[file_name], []⟩⟩
    else ⟨Except.ok specialCharsError, ⟨[], []⟩⟩
  | none => ⟨Except.ok specialCharsError, ⟨[], []⟩⟩

/-- `Actions.get_vid(message, _unused, request)`: validate `tracker`, `id`,
`width` and `height`, cap the dimensions, check `is_save`, refresh the cache
entry, then read a page of lines and answer `{action:"vid", lines:[...]}`. -/
def Actions.get_vid (message : Message) (fs : VFS) : ActionOutcome :=
  match assert_resp "tracker" (message.get "tracker") PyType.pyInt with
  | some err => ⟨Except.ok err, ⟨[], []⟩⟩
  | none =>
  match assert_resp "id" (message.get "id") PyType.pyStr with
  | some err => ⟨Except.ok err, ⟨[], []⟩⟩
  | none =>
  match assert_resp "width" (message.get "width") PyType.pyInt with
  | some err => ⟨Except.ok err, ⟨[], []⟩⟩
  | none =>
  match assert_resp "height" (message.get "height") PyType.pyInt with
  | some err => ⟨Except.ok err, ⟨[], []⟩⟩
  | none =>
  match (message.get "width").asInt, (message.get "height").asInt with
  | some w0, some h0 =>
    let wh := cap_width_and_height w0 h0
    match (message.get "id").asStr with
    | some media_id =>
      if is_save media_id then
        let file_name := get_video_name media_id wh.1 wh.2
        let file := join DATA_FOLDER file_name
        match (message.get "tracker").asInt with
        | some tracker =>
          match YouCube.get_vid fs file tracker with
          | Except.ok lines =>
            ⟨Except.ok [("action", JValue.str "vid"),
               ("lines", JValue.list (lines.map JValue.str))],
             ⟨[file_name], [file]⟩⟩
          | Except.error e => ⟨Except.error e, ⟨[file_name], [file]⟩⟩
        | none =>
          ⟨Except.ok [("action", JValue.str "error"),
             ("message", JValue.str "Invalid tracker")],
           ⟨[file_name], []⟩⟩
      else ⟨Except.ok specialCharsError, ⟨[], []⟩⟩
    | none => ⟨Except.ok specialCharsError, ⟨[], []⟩⟩
  | _, _ =>
    ⟨Except.ok [("action", JValue.str "error"),
       ("message", JValue.str "Invalid width or height")],
     ⟨[], []⟩⟩

/-- Outcome of `request_media`: the returned envelope, the cache-store
entries inserted for the produced artifact files, and the raw `url` values
handed to the download pipeline. -/
structure RequestMediaOutcome where
  result : Resp
  touched : List String
  downloads : List JValue

/-- `Actions.request_media(message, resp, request)`: validate `url` with
`assert_resp`, then hand the raw value to `download` (run in a thread) and
insert a cache entry for every returned artifact file.  The external
resolution/conversion pipeline is abstracted as `dl`, mapping the forwarded
`url` value to `download`'s `(out, files)` pair. -/
def Actions.request_media (message : Message)
    (dl : JValue → Resp × List String) : RequestMediaOutcome :=
  match assert_resp "url" (message.get "url") PyType.pyStr with
  | some err => ⟨err, [], []⟩
  | none =>
    ⟨(dl (message.get "url")).1, (dl (message.get "url")).2,
     [message.get "url"]⟩

/-- Outcome of the plain-HTTP dfpwm route: the raw bytes (or an escaped
exception) plus the cache entries touched and file paths opened. -/
structure DfpwmRouteOutcome where
  result : Except FsError (List Nat)
  touched : List String
  reads : List String

/-- `stream_dfpwm(_request, media_id, chunkindex)`: read one chunk of
`DATA_FOLDER/<media_id>.dfpwm` directly — no `is_save` check, no cache
refresh. -/
def stream_dfpwm (fs : AFS) (media_id : String) (chunkindex : Int) :
    DfpwmRouteOutcome :=
  let file := join DATA_FOLDER (get_audio_name media_id)
  ⟨getchunk fs file chunkindex, [], [file]⟩

/-- Outcome of the plain-HTTP 32vid route. -/
structure VidRouteOutcome where
  result : Except FsError String
  touched : List String
  reads : List String

/-- `stream_32vid(_request, media_id, width, height, tracker)`: read one page
of the video artifact and join it with newlines — no `is_save` check, no
capping, no cache refresh. -/
def stream_32vid (fs : VFS) (media_id : String) (width height tracker : Int) :
    VidRouteOutcome :=
  let file := join DATA_FOLDER (get_video_name media_id width height)
  match YouCube.get_vid fs file tracker with
  | Except.ok lines => ⟨Except.ok (String.intercalate "\n" lines), [], [file]⟩
  | Except.error e => ⟨Except.error e, [], [file]⟩

/-- The state of one file on disk, as the cache cleaner sees it: absent, or
present and either deletable or raising (e.g. a permission error) on
`os.remove`. -/
inductive FileState where
  | absent : FileState
  | present : Bool → FileState
  deriving DecidableEq

/-- The cleaner's view of the disk: path to file state. -/
def CFS := String → FileState

/-- The exceptions a sweep step can raise.  `data_cache_cleaner` catches only
`KeyboardInterrupt`, so any of these escapes the sweep loop. -/
inductive SweepError where
  | permissionDenied : SweepError
  | fileVanished : SweepError
  deriving DecidableEq

/-- `os.path.exists(file_path)`. -/
def pathExists (fs : CFS) (p : String) : Bool :=
  match fs p with
  | FileState.absent => false
  | FileState.present _ => true

/-- `os.remove(file_path)`: deletes the file, or raises. -/
def removeFile (fs : CFS) (p : String) : Except SweepError CFS :=
  match fs p with
  | FileState.present true =>
    Except.ok (fun q => if q = p then FileState.absent else fs q)
  | FileState.present false => Except.error SweepError.permissionDenied
  | FileState.absent => Except.error SweepError.fileVanished

/-- `data.pop(file_name)` on the shared map, viewed as an association list. -/
def popKey (data : List (String × Nat)) (k : String) : List (String × Nat) :=
  data.eraseP (fun e => e.1 == k)

/-- The sweep state while one pass of `data_cache_cleaner` runs: the shared
entry map, the disk, and the files removed so far in this pass. -/
structure SweepState where
  data : List (String × Nat)
  fs : CFS
  deleted : List String

/-- The body of the `for file_name, last_used in list(data.items())` loop:
when the entry's age exceeds the threshold, delete the backing file if it
exists, then remove the entry. -/
def sweepEntry (now after : Nat) (st : SweepState) (e : String × Nat) :
    Except SweepError SweepState :=
  if after < now - e.2 then
    let file_path := join DATA_FOLDER e.1
    if pathExists st.fs file_path then
      match removeFile st.fs file_path with
      | Except.ok fs2 =>
        Except.ok ⟨popKey st.data e.1, fs2, st.deleted ++ [file_path]⟩
      | Except.error err => Except.error err
    else Except.ok ⟨popKey st.data e.1, st.fs, st.deleted⟩
  else Except.ok st

/-- The `for` loop over the snapshot: an escaped exception aborts the rest of
the pass (and, in the source, the whole sweep loop). -/
def sweepPass (now after : Nat) :
    List (String × Nat) → SweepState → Except SweepError SweepState
  | [], st => Except.ok st
  | e :: rest, st =>
    match sweepEntry now after st e with
    | Except.ok st2 => sweepPass now after rest st2
    | Except.error err => Except.error err

/-- One pass of the `while True` loop of `data_cache_cleaner`: iterate over
`list(data.items())`, a snapshot of the entries taken at the start. -/
def runSweepPass (now after : Nat) (data : List (String × Nat)) (fs : CFS) :
    Except SweepError SweepState :=
  sweepPass now after data ⟨data, fs, []⟩

/-- The external processes `download` can spawn after resolution. -/
inductive ExtProc where
  | ytdlpFetch : ExtProc
  | ffmpeg : ExtProc
  | sanjuuni : ExtProc
  deriving DecidableEq

/-- Python truthiness of an optional int (`if width and height:`): `None` and
`0` are falsy. -/
def truthy : Option Int → Bool
  | none => false
  | some n => decide (n ≠ 0)

/-- The `(safe_width, safe_height)` the pipeline ends up with: cap the
dimensions when both are truthy, then default a missing one to `0`. -/
def downloadDims (width height : Option Int) : Int × Int :=
  let wh :=
    if truthy width && truthy height then
      match width, height with
      | some w, some h =>
        let c := cap_width_and_height w h
        (some c.1, some c.2)
      | w, h => (w, h)
    else (width, height)
  (wh.1.getD 0, wh.2.getD 0)

/-- The conversion phase of `download` (`yc_download.py` lines 293–327),
after the URL has resolved to `media_id`: which external processes run and
which artifact paths their converters write.  The existence checks
`is_audio_already_downloaded` / `is_video_already_downloaded` are not under
`src/`; modelled from the spec as file-on-disk presence of the artifact
name. -/
def downloadPhase (onDisk : String → Bool) (media_id : String)
    (width height : Option Int) : List ExtProc × List String :=
  let is_video := width.isSome && height.isSome
  let dims := downloadDims width height
  let audio_downloaded := onDisk (get_audio_name media_id)
  let video_downloaded := onDisk (get_video_name media_id dims.1 dims.2)
  let fetch :=
    if !audio_downloaded || (!video_downloaded && is_video) then
      [ExtProc.ytdlpFetch]
    else []
  let audioStep :=
    if !audio_downloaded then
      ([ExtProc.ffmpeg], [join DATA_FOLDER (get_audio_name media_id)])
    else ([], [])
  let videoStep :=
    if !video_downloaded && is_video then
      ([ExtProc.sanjuuni],
       [join DATA_FOLDER (get_video_name media_id dims.1 dims.2)])
    else ([], [])
  (fetch ++ audioStep.1 ++ videoStep.1, audioStep.2 ++ videoStep.2)

/-! ### Concrete fixtures used by witnesses and counterexamples -/

/-- A disk holding one one-byte audio artifact. -/
def afsW : AFS := fun f => if f = "data/abc.dfpwm" then some [7] else none

/-- An empty disk: no artifact has been converted (or all were evicted). -/
def emptyAFS : AFS := fun _ => none

/-- An empty disk of text artifacts. -/
def emptyVFS : VFS := fun _ => none

/-- A well-typed `get_chunk` request for media id `abc`, chunk `0`. -/
def msgChunkW : Message :=
  [("action", JValue.str "get_chunk"), ("id", JValue.str "abc"),
   ("chunkindex", JValue.int 0)]

/-- A well-typed `get_vid` request for media id `abc` at 100x100, tracker 0. -/
def msgVidW : Message :=
  [("action", JValue.str "get_vid"), ("tracker", JValue.int 0),
   ("id", JValue.str "abc"), ("width", JValue.int 100),
   ("height", JValue.int 100)]

/-- A disk holding the video artifact `abc_100_100.32vid` with two frames. -/
def vfsW : VFS :=
  fun p => if p = "data/abc_100_100.32vid" then some "a\nb\n".data else none

/-- A one-line text artifact whose final line has no trailing newline. -/
def vfsNoNl : VFS := fun p => if p = "data/v.32vid" then some "ab".data else none

/-- A disk holding both artifacts of media id `abc` at capped 100x100. -/
def onDiskW : String → Bool :=
  fun f => f == "abc.dfpwm" || f == "abc_100_100.32vid"

/-- A `request_media` request lacking the required `url` field. -/
def msgNoUrl : Message := [("action", JValue.str "request_media")]

/-- A stub download pipeline that resolves nothing and produces no files. -/
def dlNone : JValue → Resp × List String := fun _ => ([], [])

/-- A `get_vid` request lacking the required `height` field. -/
def msgNoHeight : Message :=
  [("action", JValue.str "get_vid"), ("tracker", JValue.int 0),
   ("id", JValue.str "abc"), ("width", JValue.int 100)]

/-- The exact envelope `Actions.get_vid` answers for `msgVidW` over `vfsW`. -/
def vidRespW : Resp :=
  [("action", JValue.str "vid"),
   ("lines", JValue.list (["a", "b", "", "", "", "", "", "", "", ""].map JValue.str))]

/-- Whether a handler outcome is a returned envelope with `action = "error"`
(an escaped exception is not an error envelope). -/
def isErrorResp : Except FsError Resp → Bool
  | Except.ok body =>
    match body.lookup "action" with
    | some (JValue.str a) => a == "error"
    | _ => false
  | Except.error _ => false

/-- A request whose media id `../x` fails the safe-identifier check but whose
other fields are well-typed for both paging actions. -/
def msgUnsafe : Message :=
  [("action", JValue.str "get_chunk"), ("id", JValue.str "../x"),
   ("chunkindex", JValue.int 0), ("tracker", JValue.int 0),
   ("width", JValue.int 100), ("height", JValue.int 100)]

/-- A disk where entry `a`'s file raises on delete (e.g. a permission error)
and entry `b`'s file is deletable. -/
def cfsPerm : CFS := fun p =>
  if p = join DATA_FOLDER "a" then FileState.present false
  else if p = join DATA_FOLDER "b" then FileState.present true
  else FileState.absent

/-- A disk where only entry `b`'s file exists; `a`'s file is already
absent. -/
def cfsAbsentA : CFS := fun p =>
  if p = join DATA_FOLDER "b" then FileState.present true else FileState.absent

/-- A disk holding just entry `a`'s (deletable) file. -/
def cfsOne : CFS := fun p =>
  if p = join DATA_FOLDER "a" then FileState.present true else FileState.absent

/-- Sweep state at the start of a pass over two expired entries whose file
`a` is already absent. -/
def stAbsentA : SweepState := ⟨[("a", 0), ("b", 0)], cfsAbsentA, []⟩

/-- The state a sweep pass over `[("a", 0)]` and `cfsOne` ends in. -/
def stSweptA : SweepState :=
  ⟨[], fun q => if q = join DATA_FOLDER "a" then FileState.absent else cfsOne q,
   [join DATA_FOLDER "a"]⟩

/-! ### Helper lemmas -/

/-- A `some` result of `assert_resp` is always the field/type error dict. -/
theorem assert_resp_shape (n : String) (v : JValue) (ty : PyType) (e : Resp)
    (h : assert_resp n v ty = some e) : e = fieldError n ty.name := by
  unfold assert_resp at h
  split at h
  · cases h
  · exact (Option.some.inj h).symm

/-- `asStr` succeeds only on string values. -/
theorem asStr_eq_some (v : JValue) (s : String) (h : v.asStr = some s) :
    v = JValue.str s := by
  cases v <;> simp [JValue.asStr] at h
  rw [h]

/-- `get_vid` on an existing file and non-negative tracker reads a page. -/
theorem get_vid_ok (fs : VFS) (file : String) (cs : List Char) (t : Int)
    (hfile : fs file = some cs) (ht : 0 ≤ t) :
    YouCube.get_vid fs file t =
      Except.ok (readLines (cs.drop t.toNat) FRAMES_AT_ONCE) := by
  unfold YouCube.get_vid
  rw [hfile]
  simp [not_lt.mpr ht]

/-- Concatenating the `n`-byte slices at indices `0..c-1` of a list of length
at most `c * n` yields the list back. -/
theorem chunks_cover (n : Nat) :
    ∀ (c : Nat) (l : List Nat), l.length ≤ c * n →
      (List.range c).flatMap (fun i => (l.drop (i * n)).take n) = l := by
  intro c
  induction c with
  | zero =>
    intro l hl
    simp only [Nat.zero_mul, Nat.le_zero] at hl
    simp [List.length_eq_zero.mp hl]
  | succ c ih =>
    intro l hl
    rw [List.range_succ_eq_map, List.flatMap_cons, List.flatMap_map]
    have hdrop : ∀ i : Nat,
        l.drop (Nat.succ i * n) = (l.drop n).drop (i * n) := by
      intro i
      rw [List.drop_drop]
      congr 1
      rw [Nat.succ_mul]
      ring
    have hlen : (l.drop n).length ≤ c * n := by
      have h1 := List.length_drop n l
      have h2 : (c + 1) * n = c * n + n := by ring
      omega
    simp only [Nat.zero_mul, List.drop_zero, hdrop]
    rw [ih (l.drop n) hlen, List.take_append_drop]

/-- `readLines` always yields exactly the requested number of strings. -/
theorem readLines_length : ∀ (cs : List Char) (n : Nat),
    (readLines cs n).length = n := by
  intro cs n
  induction n generalizing cs with
  | zero => rfl
  | succ n ih => simp [readLines, ih]

/-- Reading lines at end-of-file yields empty strings. -/
theorem readLines_nil : ∀ n : Nat, readLines [] n = List.replicate n "" := by
  intro n
  induction n with
  | zero => rfl
  | succ n ih => simp [readLines, readline1, ih, List.replicate_succ]

/-- `readline1` on newline-free input consumes the whole input. -/
theorem readline1_no_newline : ∀ cs : List Char,
    '\n' ∉ cs → readline1 cs = (cs, []) := by
  intro cs h
  induction cs with
  | nil => rfl
  | cons c rest ih =>
    have hc : ¬ (c = '\n') := fun hh => h (hh ▸ List.mem_cons_self c rest)
    have hrest : '\n' ∉ rest := fun hh => h (List.mem_cons_of_mem c hh)
    simp [readline1, hc, ih hrest]

/-- Unfolding one read step of `readLines`. -/
theorem readLines_succ (cs : List Char) (n : Nat) :
    readLines cs (n + 1) =
      String.mk (readline1 cs).1.dropLast :: readLines (readline1 cs).2 n := rfl

/-! ### Claims -/

/-- Claim C3: for an existing audio artifact and any chunk index `i`,
`getchunk` returns exactly the byte range
`[i * CHUNKS_AT_ONCE, i * CHUNKS_AT_ONCE + CHUNKS_AT_ONCE)` of the file,
clipped at end-of-file, and concatenating the chunks for
`i = 0 .. ceil(size / CHUNKS_AT_ONCE) - 1` reconstructs the file exactly. -/
theorem getchunk_range_and_reconstruct (fs : AFS) (file : String)
    (bytes : List Nat) (i : Nat) (h : fs file = some bytes) :
    getchunk fs file (i : Int) =
      Except.ok ((bytes.drop (i * CHUNKS_AT_ONCE)).take CHUNKS_AT_ONCE) ∧
    (List.range ((bytes.length + CHUNKS_AT_ONCE - 1) / CHUNKS_AT_ONCE)).flatMap
      (fun j => (bytes.drop (j * CHUNKS_AT_ONCE)).take CHUNKS_AT_ONCE) = bytes := by
  constructor
  · have h0 : ¬ ((i : Int) < 0) := not_lt.mpr (Int.natCast_nonneg i)
    unfold getchunk
    rw [h]
    simp [h0]
  · have h4096 : CHUNKS_AT_ONCE = 4096 := rfl
    apply chunks_cover CHUNKS_AT_ONCE
    rw [h4096]
    omega

/-- Witness for C3 at a concrete one-byte artifact. -/
theorem getchunk_range_and_reconstruct_witness :
    getchunk afsW "data/abc.dfpwm" ((0 : Nat) : Int) =
      Except.ok ((([7] : List Nat).drop (0 * CHUNKS_AT_ONCE)).take CHUNKS_AT_ONCE) ∧
    (List.range ((([7] : List Nat).length + CHUNKS_AT_ONCE - 1) / CHUNKS_AT_ONCE)).flatMap
      (fun j => (([7] : List Nat).drop (j * CHUNKS_AT_ONCE)).take CHUNKS_AT_ONCE) =
      [7] :=
  getchunk_range_and_reconstruct afsW "data/abc.dfpwm" [7] 0 rfl

/-- Claim C10: on an existing video artifact, `get_vid` always returns
exactly `FRAMES_AT_ONCE` (10) strings — the final character of each line read
is dropped unconditionally, so a final line not ending in a newline loses its
last real character, and a tracker at or past end-of-file yields empty
strings rather than an error. -/
theorem get_vid_frame_count_and_clipping (fs : VFS) (file : String)
    (cs : List Char) (t : Nat) (h : fs file = some cs) :
    get_vid fs file (t : Int) =
      Except.ok (readLines (cs.drop t) FRAMES_AT_ONCE) ∧
    (readLines (cs.drop t) FRAMES_AT_ONCE).length = FRAMES_AT_ONCE ∧
    (cs.length ≤ t →
      readLines (cs.drop t) FRAMES_AT_ONCE = List.replicate FRAMES_AT_ONCE "") ∧
    ('\n' ∉ cs.drop t →
      (readLines (cs.drop t) FRAMES_AT_ONCE).head? =
        some (String.mk (cs.drop t).dropLast)) := by
  refine ⟨?_, readLines_length _ _, ?_, ?_⟩
  · have h0 : ¬ ((t : Int) < 0) := not_lt.mpr (Int.natCast_nonneg t)
    unfold get_vid
    rw [h]
    simp [h0]
  · intro hle
    rw [List.drop_eq_nil_of_le hle, readLines_nil]
  · intro hnl
    have h10 : FRAMES_AT_ONCE = 9 + 1 := rfl
    rw [h10, readLines_succ, readline1_no_newline _ hnl]
    rfl

/-- Witness for C10 on a one-line artifact whose line has no newline: with
`tracker = 0` the first returned string is `"a"`, the line's last character
`b` having been dropped. -/
theorem get_vid_frame_count_and_clipping_witness :
    get_vid vfsNoNl "data/v.32vid" ((0 : Nat) : Int) =
      Except.ok (readLines ("ab".data.drop 0) FRAMES_AT_ONCE) ∧
    (readLines ("ab".data.drop 0) FRAMES_AT_ONCE).length = FRAMES_AT_ONCE ∧
    ("ab".data.length ≤ 0 →
      readLines ("ab".data.drop 0) FRAMES_AT_ONCE = List.replicate FRAMES_AT_ONCE "") ∧
    ('\n' ∉ "ab".data.drop 0 →
      (readLines ("ab".data.drop 0) FRAMES_AT_ONCE).head? =
        some (String.mk ("ab".data.drop 0).dropLast)) :=
  get_vid_frame_count_and_clipping vfsNoNl "data/v.32vid" "ab".data 0 rfl

/-- Claim C2 names an error envelope, but the code raises: requesting a chunk
or a video page of a never-converted (or evicted) artifact opens a missing
file, and the `FileNotFoundError` escapes the handler — `wshandler` has no
`try` around the action call, so no `{action:"error"}` envelope is produced
for this case.  This theorem evaluates both handlers at the failing input. -/
theorem missing_artifact_raises_instead_of_error_envelope :
    (Actions.get_chunk msgChunkW emptyAFS).result =
      Except.error FsError.fileNotFound ∧
    (Actions.get_vid msgVidW emptyVFS).result =
      Except.error FsError.fileNotFound := by
  constructor <;> rfl

/-- Claim C4: when the audio artifact already exists on disk and, if video
was requested, the video artifact for the (clamped) dimensions also exists,
`download` invokes no external fetch or converter process and writes no
artifact file — an idempotent cache hit. -/
theorem download_skips_conversion_on_cache_hit (onDisk : String → Bool)
    (m : String) (width height : Option Int)
    (haudio : onDisk (get_audio_name m) = true)
    (hvideo : (width.isSome && height.isSome) = true →
      onDisk (get_video_name m (downloadDims width height).1
        (downloadDims width height).2) = true) :
    downloadPhase onDisk m width height = ([], []) := by
  unfold downloadPhase
  cases hv : (width.isSome && height.isSome) with
  | true => simp [haudio, hvideo hv]
  | false => simp [haudio, hv]

/-- Witness for C4: both artifacts of `abc` at 100x100 are on disk, so the
pipeline runs nothing. -/
theorem download_skips_conversion_on_cache_hit_witness :
    downloadPhase onDiskW "abc" (some 100) (some 100) = ([], []) :=
  download_skips_conversion_on_cache_hit onDiskW "abc" (some 100) (some 100)
    rfl (fun _ => rfl)

/-- Claim C7: a known action whose required field is missing or mis-typed
immediately answers `{action:"error", message:"<field> must be a <type>"}`
naming that field and type, with no file access, no cache touch and no
download — the handler's main logic never runs.  The conjuncts follow the
handlers' check order (`chunkindex`, `id` for `get_chunk`; `tracker`, `id`,
`width`, `height` for `get_vid`; `url` for `request_media`). -/
theorem malformed_field_rejected_before_handler (msg : Message) (afs : AFS)
    (vfs : VFS) (dl : JValue → Resp × List String) :
    (isinstance (msg.get "chunkindex") PyType.pyInt = false →
      Actions.get_chunk msg afs =
        ⟨Except.ok (fieldError "chunkindex" "int"), ⟨[], []⟩⟩) ∧
    (isinstance (msg.get "chunkindex") PyType.pyInt = true →
      isinstance (msg.get "id") PyType.pyStr = false →
      Actions.get_chunk msg afs =
        ⟨Except.ok (fieldError "id" "str"), ⟨[], []⟩⟩) ∧
    (isinstance (msg.get "tracker") PyType.pyInt = false →
      Actions.get_vid msg vfs =
        ⟨Except.ok (fieldError "tracker" "int"), ⟨[], []⟩⟩) ∧
    (isinstance (msg.get "tracker") PyType.pyInt = true →
      isinstance (msg.get "id") PyType.pyStr = false →
      Actions.get_vid msg vfs =
        ⟨Except.ok (fieldError "id" "str"), ⟨[], []⟩⟩) ∧
    (isinstance (msg.get "tracker") PyType.pyInt = true →
      isinstance (msg.get "id") PyType.pyStr = true →
      isinstance (msg.get "width") PyType.pyInt = false →
      Actions.get_vid msg vfs =
        ⟨Except.ok (fieldError "width" "int"), ⟨[], []⟩⟩) ∧
    (isinstance (msg.get "tracker") PyType.pyInt = true →
      isinstance (msg.get "id") PyType.pyStr = true →
      isinstance (msg.get "width") PyType.pyInt = true →
      isinstance (msg.get "height") PyType.pyInt = false →
      Actions.get_vid msg vfs =
        ⟨Except.ok (fieldError "height" "int"), ⟨[], []⟩⟩) ∧
    (isinstance (msg.get "url") PyType.pyStr = false →
      Actions.request_media msg dl = ⟨fieldError "url" "str", [], []⟩) := by
  refine ⟨?_, ?_, ?_, ?_, ?_, ?_, ?_⟩
  · intro h1
    unfold Actions.get_chunk
    simp [assert_resp, h1, PyType.name]
  · intro h1 h2
    unfold Actions.get_chunk
    simp [assert_resp, h1, h2, PyType.name]
  · intro h1
    unfold Actions.get_vid
    simp [assert_resp, h1, PyType.name]
  · intro h1 h2
    unfold Actions.get_vid
    simp [assert_resp, h1, h2, PyType.name]
  · intro h1 h2 h3
    unfold Actions.get_vid
    simp [assert_resp, h1, h2, h3, PyType.name]
  · intro h1 h2 h3 h4
    unfold Actions.get_vid
    simp [assert_resp, h1, h2, h3, h4, PyType.name]
  · intro h1
    unfold Actions.request_media
    simp [assert_resp, h1, PyType.name]

/-- Witness for C7: the spec's scenario — `get_vid` without `height` answers
`height must be a int` — and `request_media` without `url` answers
`url must be a str`; in both cases no handler logic runs. -/
theorem malformed_field_rejected_before_handler_witness :
    Actions.get_vid msgNoHeight emptyVFS =
      ⟨Except.ok (fieldError "height" "int"), ⟨[], []⟩⟩ ∧
    Actions.request_media msgNoUrl dlNone =
      ⟨fieldError "url" "str", [], []⟩ :=
  ⟨(malformed_field_rejected_before_handler msgNoHeight emptyAFS
      emptyVFS dlNone).2.2.2.2.2.1 rfl rfl rfl rfl,
   (malformed_field_rejected_before_handler msgNoUrl emptyAFS
      emptyVFS dlNone).2.2.2.2.2.2 rfl⟩

/-- Claim C9: the plain HTTP routes build the filesystem path straight from
the media id and read it with no `is_save` validation — even for an id the
safe-identifier policy rejects — and never touch the cache store, unlike the
connection-based `get_chunk`, which for the same unsafe id accesses nothing. -/
theorem http_routes_skip_validation_and_cache (afs : AFS) (vfs : VFS)
    (media_id : String) (w h t ci : Int)
    (hbad : is_save media_id = false) :
    ((stream_dfpwm afs media_id ci).reads =
        [join DATA_FOLDER (get_audio_name media_id)] ∧
      (stream_dfpwm afs media_id ci).touched = []) ∧
    ((stream_32vid vfs media_id w h t).reads =
        [join DATA_FOLDER (get_video_name media_id w h)] ∧
      (stream_32vid vfs media_id w h t).touched = []) ∧
    ((Actions.get_chunk
        [("id", JValue.str media_id), ("chunkindex", JValue.int ci)]
        afs).effects.reads = [] ∧
      (Actions.get_chunk
        [("id", JValue.str media_id), ("chunkindex", JValue.int ci)]
        afs).effects.touched = []) := by
  refine ⟨⟨rfl, rfl⟩, ?_, ?_⟩
  · cases hgv : YouCube.get_vid vfs (join DATA_FOLDER (get_video_name media_id w h)) t <;>
      simp [stream_32vid, hgv]
  · unfold Actions.get_chunk
    simp [Message.get, assert_resp, isinstance, JValue.asStr, List.lookup, hbad]

/-- Witness for C9 with the unsafe id `../x`. -/
theorem http_routes_skip_validation_and_cache_witness :
    ((stream_dfpwm emptyAFS "../x" 0).reads =
        [join DATA_FOLDER (get_audio_name "../x")] ∧
      (stream_dfpwm emptyAFS "../x" 0).touched = []) ∧
    ((stream_32vid emptyVFS "../x" 1 1 0).reads =
        [join DATA_FOLDER (get_video_name "../x" 1 1)] ∧
      (stream_32vid emptyVFS "../x" 1 1 0).touched = []) ∧
    ((Actions.get_chunk
        [("id", JValue.str "../x"), ("chunkindex", JValue.int 0)]
        emptyAFS).effects.reads = [] ∧
      (Actions.get_chunk
        [("id", JValue.str "../x"), ("chunkindex", JValue.int 0)]
        emptyAFS).effects.touched = []) :=
  http_routes_skip_validation_and_cache emptyAFS emptyVFS "../x" 1 1 0 0 rfl

/-- `get_chunk` with an unsafe id answers an error envelope and opens no
file. -/
theorem get_chunk_unsafe_no_access (msg : Message) (afs : AFS) (s : String)
    (hid : msg.get "id" = JValue.str s) (hs : is_save s = false) :
    (Actions.get_chunk msg afs).effects.reads = [] ∧
    isErrorResp (Actions.get_chunk msg afs).result = true := by
  unfold Actions.get_chunk
  cases h1 : assert_resp "chunkindex" (msg.get "chunkindex") PyType.pyInt with
  | some err =>
    obtain rfl : err = fieldError "chunkindex" PyType.pyInt.name :=
      assert_resp_shape _ _ _ _ h1
    exact ⟨rfl, rfl⟩
  | none =>
    cases h2 : assert_resp "id" (msg.get "id") PyType.pyStr with
    | some err =>
      obtain rfl : err = fieldError "id" PyType.pyStr.name :=
        assert_resp_shape _ _ _ _ h2
      exact ⟨rfl, rfl⟩
    | none =>
      rw [hid]
      simp [JValue.asStr, hs, isErrorResp, specialCharsError, List.lookup]

/-- `get_vid` with an unsafe id answers an error envelope and opens no
file. -/
theorem get_vid_unsafe_no_access (msg : Message) (vfs : VFS) (s : String)
    (hid : msg.get "id" = JValue.str s) (hs : is_save s = false) :
    (Actions.get_vid msg vfs).effects.reads = [] ∧
    isErrorResp (Actions.get_vid msg vfs).result = true := by
  unfold Actions.get_vid
  cases h1 : assert_resp "tracker" (msg.get "tracker") PyType.pyInt with
  | some err =>
    obtain rfl : err = fieldError "tracker" PyType.pyInt.name :=
      assert_resp_shape _ _ _ _ h1
    exact ⟨rfl, rfl⟩
  | none =>
    cases h2 : assert_resp "id" (msg.get "id") PyType.pyStr with
    | some err =>
      obtain rfl : err = fieldError "id" PyType.pyStr.name :=
        assert_resp_shape _ _ _ _ h2
      exact ⟨rfl, rfl⟩
    | none =>
      cases h3 : assert_resp "width" (msg.get "width") PyType.pyInt with
      | some err =>
        obtain rfl : err = fieldError "width" PyType.pyInt.name :=
          assert_resp_shape _ _ _ _ h3
        exact ⟨rfl, rfl⟩
      | none =>
        cases h4 : assert_resp "height" (msg.get "height") PyType.pyInt with
        | some err =>
          obtain rfl : err = fieldError "height" PyType.pyInt.name :=
            assert_resp_shape _ _ _ _ h4
          exact ⟨rfl, rfl⟩
        | none =>
          cases h5 : (msg.get "width").asInt with
          | none => simp [h5, isErrorResp, List.lookup]
          | some w0 =>
            cases h6 : (msg.get "height").asInt with
            | none => simp [h5, h6, isErrorResp, List.lookup]
            | some h0 =>
              rw [hid]
              simp [h5, h6, JValue.asStr, hs, isErrorResp,
                specialCharsError, List.lookup]

/-- `get_chunk` opens a file only when the id is a string passing
`is_save`. -/
theorem get_chunk_reads_implies_safe (msg : Message) (afs : AFS) (p : String)
    (hp : p ∈ (Actions.get_chunk msg afs).effects.reads) :
    ∃ s : String, msg.get "id" = JValue.str s ∧ is_save s = true := by
  unfold Actions.get_chunk at hp
  cases h1 : assert_resp "chunkindex" (msg.get "chunkindex") PyType.pyInt with
  | some err => simp [h1] at hp
  | none =>
    cases h2 : assert_resp "id" (msg.get "id") PyType.pyStr with
    | some err => simp [h1, h2] at hp
    | none =>
      cases h3 : (msg.get "id").asStr with
      | none => simp [h1, h2, h3] at hp
      | some media_id =>
        cases hsv : is_save media_id with
        | false => simp [h1, h2, h3, hsv] at hp
        | true => exact ⟨media_id, asStr_eq_some _ _ h3, hsv⟩

/-- `get_vid` opens a file only when the id is a string passing `is_save`. -/
theorem get_vid_reads_implies_safe (msg : Message) (vfs : VFS) (p : String)
    (hp : p ∈ (Actions.get_vid msg vfs).effects.reads) :
    ∃ s : String, msg.get "id" = JValue.str s ∧ is_save s = true := by
  unfold Actions.get_vid at hp
  cases h1 : assert_resp "tracker" (msg.get "tracker") PyType.pyInt with
  | some err => simp [h1] at hp
  | none =>
    cases h2 : assert_resp "id" (msg.get "id") PyType.pyStr with
    | some err => simp [h1, h2] at hp
    | none =>
      cases h3 : assert_resp "width" (msg.get "width") PyType.pyInt with
      | some err => simp [h1, h2, h3] at hp
      | none =>
        cases h4 : assert_resp "height" (msg.get "height") PyType.pyInt with
        | some err => simp [h1, h2, h3, h4] at hp
        | none =>
          cases h5 : (msg.get "width").asInt with
          | none => simp [h1, h2, h3, h4, h5] at hp
          | some w0 =>
            cases h6 : (msg.get "height").asInt with
            | none => simp [h1, h2, h3, h4, h5, h6] at hp
            | some h0 =>
              cases h7 : (msg.get "id").asStr with
              | none => simp [h1, h2, h3, h4, h5, h6, h7] at hp
              | some media_id =>
                cases hsv : is_save media_id with
                | false => simp [h1, h2, h3, h4, h5, h6, h7, hsv] at hp
                | true => exact ⟨media_id, asStr_eq_some _ _ h7, hsv⟩

/-- Claim C1: over the persistent connection, a `get_chunk` or `get_vid`
request whose media id fails the safe-identifier check is answered with an
error envelope before any filesystem path for that id is opened; a file is
opened only when the id passes the check. -/
theorem unsafe_id_rejected_before_any_file_access (msg : Message) (afs : AFS)
    (vfs : VFS) :
    (∀ s : String, msg.get "id" = JValue.str s → is_save s = false →
      ((Actions.get_chunk msg afs).effects.reads = [] ∧
       isErrorResp (Actions.get_chunk msg afs).result = true ∧
       (Actions.get_vid msg vfs).effects.reads = [] ∧
       isErrorResp (Actions.get_vid msg vfs).result = true)) ∧
    (∀ p : String, p ∈ (Actions.get_chunk msg afs).effects.reads →
      ∃ s : String, msg.get "id" = JValue.str s ∧ is_save s = true) ∧
    (∀ p : String, p ∈ (Actions.get_vid msg vfs).effects.reads →
      ∃ s : String, msg.get "id" = JValue.str s ∧ is_save s = true) := by
  refine ⟨fun s hid hs => ?_,
    fun p hp => get_chunk_reads_implies_safe msg afs p hp,
    fun p hp => get_vid_reads_implies_safe msg vfs p hp⟩
  obtain ⟨hc1, hc2⟩ := get_chunk_unsafe_no_access msg afs s hid hs
  obtain ⟨hv1, hv2⟩ := get_vid_unsafe_no_access msg vfs s hid hs
  exact ⟨hc1, hc2, hv1, hv2⟩

/-- Witness for C1 at the unsafe id `../x`. -/
theorem unsafe_id_rejected_before_any_file_access_witness :
    (Actions.get_chunk msgUnsafe emptyAFS).effects.reads = [] ∧
    isErrorResp (Actions.get_chunk msgUnsafe emptyAFS).result = true ∧
    (Actions.get_vid msgUnsafe emptyVFS).effects.reads = [] ∧
    isErrorResp (Actions.get_vid msgUnsafe emptyVFS).result = true :=
  (unsafe_id_rejected_before_any_file_access msgUnsafe emptyAFS emptyVFS).1
    "../x" rfl rfl

/-- Counterexample to claim C8: on an existing artifact with tracker `0`,
the `get_vid` response envelope has exactly the keys `action` and `lines` —
it carries no byte offset of the line following the batch (no next-offset
field at all), so the client cannot take the next tracker from the
response. -/
theorem get_vid_response_has_no_offset_field :
    (Actions.get_vid msgVidW vfsW).result = Except.ok vidRespW ∧
    vidRespW.map Prod.fst = ["action", "lines"] := by
  exact ⟨rfl, rfl⟩

/-- Claim C8 as amended: for a well-formed `get_vid` request on an existing
video artifact, the returned page consists of the next `FRAMES_AT_ONCE`
frame-lines starting at byte offset `tracker`; the response contains only the
`action` and `lines` fields and no next offset — the client must track its
own next tracker. -/
theorem get_vid_page_is_lines_at_tracker (msg : Message) (vfs : VFS)
    (t w0 h0 : Int) (s : String) (cs : List Char)
    (htr : msg.get "tracker" = JValue.int t) (ht : 0 ≤ t)
    (hid : msg.get "id" = JValue.str s) (hsafe : is_save s = true)
    (hw : msg.get "width" = JValue.int w0)
    (hh : msg.get "height" = JValue.int h0)
    (hfile : vfs (join DATA_FOLDER
      (get_video_name s (cap_width_and_height w0 h0).1
        (cap_width_and_height w0 h0).2)) = some cs) :
    Actions.get_vid msg vfs =
      ⟨Except.ok [("action", JValue.str "vid"),
         ("lines", JValue.list
           ((readLines (cs.drop t.toNat) FRAMES_AT_ONCE).map JValue.str))],
       ⟨[get_video_name s (cap_width_and_height w0 h0).1
           (cap_width_and_height w0 h0).2],
        [join DATA_FOLDER
          (get_video_name s (cap_width_and_height w0 h0).1
            (cap_width_and_height w0 h0).2)]⟩⟩ := by
  unfold Actions.get_vid
  rw [htr, hid, hw, hh]
  simp only [assert_resp, isinstance, if_true, JValue.asInt, JValue.asStr]
  simp [hsafe, get_vid_ok vfs _ cs t hfile ht]

/-- Witness for the amended C8 at a concrete two-frame artifact. -/
theorem get_vid_page_is_lines_at_tracker_witness :
    Actions.get_vid msgVidW vfsW =
      ⟨Except.ok [("action", JValue.str "vid"),
         ("lines", JValue.list
           ((readLines ("a\nb\n".data.drop (0 : Int).toNat)
              FRAMES_AT_ONCE).map JValue.str))],
       ⟨[get_video_name "abc" (cap_width_and_height 100 100).1
           (cap_width_and_height 100 100).2],
        [join DATA_FOLDER
          (get_video_name "abc" (cap_width_and_height 100 100).1
            (cap_width_and_height 100 100).2)]⟩⟩ :=
  get_vid_page_is_lines_at_tracker msgVidW vfsW 0 100 100 "abc" "a\nb\n".data
    rfl (by decide) rfl rfl rfl rfl rfl

/-- The two paths the sweep builds are equal only for equal filenames. -/
theorem join_inj (a b : String) (h : join DATA_FOLDER a = join DATA_FOLDER b) :
    a = b := by
  have h2 := congrArg String.data h
  simp [join, DATA_FOLDER, String.data_append] at h2
  exact String.ext h2

/-- An entry with a different key survives `data.pop`. -/
theorem mem_popKey (k : String) (e : String × Nat) (hne : e.1 ≠ k) :
    ∀ data : List (String × Nat), e ∈ data → e ∈ popKey data k := by
  intro data
  induction data with
  | nil => intro he; cases he
  | cons a rest ih =>
    intro he
    show e ∈ List.eraseP (fun x => x.1 == k) (a :: rest)
    rw [List.eraseP_cons]
    cases hak : (a.1 == k) with
    | true =>
      simp only [cond_true]
      rcases List.mem_cons.mp he with rfl | hmem
      · exact absurd (beq_iff_eq.mp hak) hne
      · exact hmem
    | false =>
      simp only [cond_false]
      rcases List.mem_cons.mp he with rfl | hmem
      · exact List.mem_cons_self _ _
      · exact List.mem_cons_of_mem _ (ih hmem)

/-- After `data.pop(k)` on a map with distinct keys, no entry has key `k`. -/
theorem popKey_keys (k : String) :
    ∀ data : List (String × Nat), (data.map Prod.fst).Nodup →
      ∀ x ∈ popKey data k, x.1 ≠ k := by
  intro data
  induction data with
  | nil => intro _ x hx; cases hx
  | cons a rest ih =>
    intro hnodup x hx
    rw [List.map_cons] at hnodup
    obtain ⟨hnotin, hrest⟩ := List.nodup_cons.mp hnodup
    revert hx
    show x ∈ List.eraseP (fun y => y.1 == k) (a :: rest) → x.1 ≠ k
    rw [List.eraseP_cons]
    cases hak : (a.1 == k) with
    | true =>
      simp only [cond_true]
      intro hx hxk
      apply hnotin
      have hmem : x.1 ∈ rest.map Prod.fst := List.mem_map_of_mem Prod.fst hx
      rwa [hxk, ← beq_iff_eq.mp hak] at hmem
    | false =>
      simp only [cond_false]
      intro hx
      rcases List.mem_cons.mp hx with rfl | hmem
      · intro hxk
        rw [hxk] at hak
        simp at hak
      · exact ih hrest x hmem

/-- In a map with distinct keys, equal keys mean equal entries. -/
theorem nodup_key_eq :
    ∀ data : List (String × Nat), (data.map Prod.fst).Nodup →
      ∀ x ∈ data, ∀ y ∈ data, x.1 = y.1 → x = y := by
  intro data
  induction data with
  | nil => intro _ x hx; cases hx
  | cons a rest ih =>
    intro hnodup x hx y hy hk
    rw [List.map_cons] at hnodup
    obtain ⟨hnotin, hrest⟩ := List.nodup_cons.mp hnodup
    rcases List.mem_cons.mp hx with rfl | hx2
    · rcases List.mem_cons.mp hy with rfl | hy2
      · rfl
      · exfalso
        apply hnotin
        rw [hk]
        exact List.mem_map_of_mem Prod.fst hy2
    · rcases List.mem_cons.mp hy with rfl | hy2
      · exfalso
        apply hnotin
        rw [← hk]
        exact List.mem_map_of_mem Prod.fst hx2
      · exact ih hrest x hx2 y hy2 hk

/-- An entry younger than the retention threshold is skipped unchanged. -/
theorem sweepEntry_fresh (now after : Nat) (st : SweepState) (e : String × Nat)
    (h : ¬ after < now - e.2) : sweepEntry now after st e = Except.ok st := by
  unfold sweepEntry
  rw [if_neg h]

/-- Unfolding one iteration of the sweep loop. -/
theorem sweepPass_cons (now after : Nat) (e : String × Nat)
    (rest : List (String × Nat)) (st : SweepState) :
    sweepPass now after (e :: rest) st =
      match sweepEntry now after st e with
      | Except.ok st2 => sweepPass now after rest st2
      | Except.error err => Except.error err := rfl

/-- An expired entry whose file is already absent: the entry is popped, the
disk and deletion log are untouched, and no exception is raised. -/
theorem sweepEntry_expired_absent (now after : Nat) (st : SweepState)
    (e : String × Nat) (hexp : after < now - e.2)
    (hfs : st.fs (join DATA_FOLDER e.1) = FileState.absent) :
    sweepEntry now after st e =
      Except.ok ⟨popKey st.data e.1, st.fs, st.deleted⟩ := by
  unfold sweepEntry
  simp [hexp, pathExists, hfs]

/-- An expired entry whose file is present and deletable: the file is
removed, the deletion logged, the entry popped. -/
theorem sweepEntry_expired_present (now after : Nat) (st : SweepState)
    (e : String × Nat) (hexp : after < now - e.2)
    (hfs : st.fs (join DATA_FOLDER e.1) = FileState.present true) :
    sweepEntry now after st e =
      Except.ok ⟨popKey st.data e.1,
        fun q => if q = join DATA_FOLDER e.1 then FileState.absent
          else st.fs q,
        st.deleted ++ [join DATA_FOLDER e.1]⟩ := by
  unfold sweepEntry
  simp [hexp, pathExists, removeFile, hfs]

/-- An expired entry whose delete raises: the exception escapes the step. -/
theorem sweepEntry_expired_locked (now after : Nat) (st : SweepState)
    (e : String × Nat) (hexp : after < now - e.2)
    (hfs : st.fs (join DATA_FOLDER e.1) = FileState.present false) :
    sweepEntry now after st e = Except.error SweepError.permissionDenied := by
  unfold sweepEntry
  simp [hexp, pathExists, removeFile, hfs]

/-- Shape of any successful sweep step: either the entry was fresh and the
state is unchanged, or it was expired, its key was popped, its path is now
absent, no other path changed, and the path was recorded as deleted exactly
when the file was present. -/
theorem sweepEntry_ok_cases (now after : Nat) (st : SweepState)
    (e : String × Nat) (st2 : SweepState)
    (h : sweepEntry now after st e = Except.ok st2) :
    (¬ after < now - e.2 ∧ st2 = st) ∨
    (after < now - e.2 ∧ st2.data = popKey st.data e.1 ∧
      st2.fs (join DATA_FOLDER e.1) = FileState.absent ∧
      (∀ p, p ≠ join DATA_FOLDER e.1 → st2.fs p = st.fs p) ∧
      ((st.fs (join DATA_FOLDER e.1) = FileState.absent ∧
          st2.deleted = st.deleted) ∨
       (st.fs (join DATA_FOLDER e.1) = FileState.present true ∧
          st2.deleted = st.deleted ++ [join DATA_FOLDER e.1]))) := by
  by_cases hexp : after < now - e.2
  · cases hfs : st.fs (join DATA_FOLDER e.1) with
    | absent =>
      rw [sweepEntry_expired_absent now after st e hexp hfs] at h
      obtain rfl := Except.ok.inj h
      refine Or.inr ⟨hexp, rfl, ?_, ?_, Or.inl ⟨rfl, rfl⟩⟩
      · show st.fs (join DATA_FOLDER e.1) = FileState.absent
        exact hfs
      · intro p _
        rfl
    | present b =>
      cases b with
      | false =>
        rw [sweepEntry_expired_locked now after st e hexp hfs] at h
        cases h
      | true =>
        rw [sweepEntry_expired_present now after st e hexp hfs] at h
        obtain rfl := Except.ok.inj h
        refine Or.inr ⟨hexp, rfl, ?_, ?_, Or.inr ⟨rfl, rfl⟩⟩
        · show (if join DATA_FOLDER e.1 = join DATA_FOLDER e.1
              then FileState.absent
              else st.fs (join DATA_FOLDER e.1)) = FileState.absent
          rw [if_pos rfl]
        · intro p hp
          show (if p = join DATA_FOLDER e.1 then FileState.absent
            else st.fs p) = st.fs p
          rw [if_neg hp]
  · rw [sweepEntry_fresh now after st e hexp] at h
    exact Or.inl ⟨hexp, (Except.ok.inj h).symm⟩

/-- Splitting a sweep pass at a point of the snapshot. -/
theorem sweepPass_append (now after : Nat) (l₁ l₂ : List (String × Nat)) :
    ∀ st : SweepState,
      sweepPass now after (l₁ ++ l₂) st =
        match sweepPass now after l₁ st with
        | Except.ok st1 => sweepPass now after l₂ st1
        | Except.error err => Except.error err := by
  induction l₁ with
  | nil => intro st; rfl
  | cons e rest ih =>
    intro st
    rw [List.cons_append, sweepPass_cons, sweepPass_cons]
    cases hstep : sweepEntry now after st e with
    | ok st2 => exact ih st2
    | error err => rfl

/-- A sweep pass over a fault-free disk never raises, and the disk stays
fault-free. -/
theorem sweepPass_ok (now after : Nat) :
    ∀ (l : List (String × Nat)) (st : SweepState),
      (∀ p, st.fs p ≠ FileState.present false) →
      ∃ st', sweepPass now after l st = Except.ok st' ∧
        (∀ p, st'.fs p ≠ FileState.present false) := by
  intro l
  induction l with
  | nil => intro st h; exact ⟨st, rfl, h⟩
  | cons e rest ih =>
    intro st h
    by_cases hexp : after < now - e.2
    · cases hfs : st.fs (join DATA_FOLDER e.1) with
      | absent =>
        obtain ⟨st', h1, h2⟩ := ih ⟨popKey st.data e.1, st.fs, st.deleted⟩ h
        refine ⟨st', ?_, h2⟩
        rw [sweepPass_cons, sweepEntry_expired_absent now after st e hexp hfs]
        exact h1
      | present b =>
        cases b with
        | false => exact absurd hfs (h _)
        | true =>
          have hinv : ∀ p, (SweepState.mk (popKey st.data e.1)
              (fun q => if q = join DATA_FOLDER e.1 then FileState.absent
                else st.fs q)
              (st.deleted ++ [join DATA_FOLDER e.1])).fs p ≠
              FileState.present false := by
            intro p
            show (if p = join DATA_FOLDER e.1 then FileState.absent
              else st.fs p) ≠ FileState.present false
            by_cases hq : p = join DATA_FOLDER e.1
            · rw [if_pos hq]
              intro hc
              cases hc
            · rw [if_neg hq]
              exact h p
          obtain ⟨st', h1, h2⟩ := ih (SweepState.mk (popKey st.data e.1)
            (fun q => if q = join DATA_FOLDER e.1 then FileState.absent
              else st.fs q)
            (st.deleted ++ [join DATA_FOLDER e.1])) hinv
          refine ⟨st', ?_, h2⟩
          rw [sweepPass_cons,
            sweepEntry_expired_present now after st e hexp hfs]
          exact h1
    · obtain ⟨st', h1, h2⟩ := ih st h
      refine ⟨st', ?_, h2⟩
      rw [sweepPass_cons, sweepEntry_fresh now after st e hexp]
      exact h1

/-- A sweep pass changes no path other than those of expired snapshot
entries. -/
theorem sweepPass_fs_untouched (now after : Nat) :
    ∀ (l : List (String × Nat)) (st st' : SweepState),
      sweepPass now after l st = Except.ok st' →
      ∀ p : String,
        (∀ x ∈ l, after < now - x.2 → join DATA_FOLDER x.1 ≠ p) →
        st'.fs p = st.fs p := by
  intro l
  induction l with
  | nil =>
    intro st st' h p hl
    injection h with h
    rw [← h]
  | cons e rest ih =>
    intro st st' h p hl
    rw [sweepPass_cons] at h
    cases hstep : sweepEntry now after st e with
    | error err => rw [hstep] at h; simp at h
    | ok st2 =>
      rw [hstep] at h
      have hrest : st'.fs p = st2.fs p :=
        ih st2 st' h p (fun x hx => hl x (List.mem_cons_of_mem e hx))
      rcases sweepEntry_ok_cases now after st e st2 hstep with
        ⟨_, rfl⟩ | ⟨hexp, _, _, haway, _⟩
      · exact hrest
      · rw [hrest]
        exact haway p (Ne.symm (hl e (List.mem_cons_self e rest) hexp))

/-- A path absent from the disk stays absent throughout the pass. -/
theorem sweepPass_fs_absent (now after : Nat) :
    ∀ (l : List (String × Nat)) (st st' : SweepState),
      sweepPass now after l st = Except.ok st' →
      ∀ p : String, st.fs p = FileState.absent →
        st'.fs p = FileState.absent := by
  intro l
  induction l with
  | nil =>
    intro st st' h p habs
    injection h with h
    rw [← h]
    exact habs
  | cons e rest ih =>
    intro st st' h p habs
    rw [sweepPass_cons] at h
    cases hstep : sweepEntry now after st e with
    | error err => rw [hstep] at h; simp at h
    | ok st2 =>
      rw [hstep] at h
      apply ih st2 st' h p
      rcases sweepEntry_ok_cases now after st e st2 hstep with
        ⟨_, rfl⟩ | ⟨_, _, hpath, haway, _⟩
      · exact habs
      · by_cases hq : p = join DATA_FOLDER e.1
        · rw [hq]
          exact hpath
        · rw [haway p hq]
          exact habs

/-- The shared map only loses entries during a pass. -/
theorem sweepPass_data_sublist (now after : Nat) :
    ∀ (l : List (String × Nat)) (st st' : SweepState),
      sweepPass now after l st = Except.ok st' →
      st'.data.Sublist st.data := by
  intro l
  induction l with
  | nil =>
    intro st st' h
    injection h with h
    rw [← h]
  | cons e rest ih =>
    intro st st' h
    rw [sweepPass_cons] at h
    cases hstep : sweepEntry now after st e with
    | error err => rw [hstep] at h; simp at h
    | ok st2 =>
      rw [hstep] at h
      have h2 := ih st2 st' h
      rcases sweepEntry_ok_cases now after st e st2 hstep with
        ⟨_, rfl⟩ | ⟨_, hdata, _, _, _⟩
      · exact h2
      · rw [hdata] at h2
        exact h2.trans (List.eraseP_sublist st.data)

/-- The pass records deletions only at the paths of expired snapshot
entries. -/
theorem sweepPass_deleted_count (now after : Nat) :
    ∀ (l : List (String × Nat)) (st st' : SweepState),
      sweepPass now after l st = Except.ok st' →
      ∀ p : String,
        (∀ x ∈ l, after < now - x.2 → join DATA_FOLDER x.1 ≠ p) →
        st'.deleted.count p = st.deleted.count p := by
  intro l
  induction l with
  | nil =>
    intro st st' h p hl
    injection h with h
    rw [← h]
  | cons e rest ih =>
    intro st st' h p hl
    rw [sweepPass_cons] at h
    cases hstep : sweepEntry now after st e with
    | error err => rw [hstep] at h; simp at h
    | ok st2 =>
      rw [hstep] at h
      have hrest : st'.deleted.count p = st2.deleted.count p :=
        ih st2 st' h p (fun x hx => hl x (List.mem_cons_of_mem e hx))
      rcases sweepEntry_ok_cases now after st e st2 hstep with
        ⟨_, rfl⟩ | ⟨hexp, _, _, _, hdel⟩
      · exact hrest
      · rcases hdel with ⟨_, hdel⟩ | ⟨_, hdel⟩
        · rw [hrest, hdel]
        · rw [hrest, hdel]
          have hne : join DATA_FOLDER e.1 ≠ p :=
            hl e (List.mem_cons_self e rest) hexp
          simp [List.count_append, List.count_singleton, hne]

/-- An entry none of whose expired snapshot companions shares its key stays
in the map. -/
theorem sweepPass_data_mem (now after : Nat) :
    ∀ (l : List (String × Nat)) (st st' : SweepState),
      sweepPass now after l st = Except.ok st' →
      ∀ e2, e2 ∈ st.data →
        (∀ x ∈ l, after < now - x.2 → x.1 ≠ e2.1) → e2 ∈ st'.data := by
  intro l
  induction l with
  | nil =>
    intro st st' h e2 he2 hl
    injection h with h
    rw [← h]
    exact he2
  | cons e rest ih =>
    intro st st' h e2 he2 hl
    rw [sweepPass_cons] at h
    cases hstep : sweepEntry now after st e with
    | error err => rw [hstep] at h; simp at h
    | ok st2 =>
      rw [hstep] at h
      apply ih st2 st' h e2 _ (fun x hx => hl x (List.mem_cons_of_mem e hx))
      rcases sweepEntry_ok_cases now after st e st2 hstep with
        ⟨_, rfl⟩ | ⟨hexp, hdata, _, _, _⟩
      · exact he2
      · rw [hdata]
        exact mem_popKey e.1 e2
          (Ne.symm (hl e (List.mem_cons_self e rest) hexp)) st.data he2

/-- Claim C5: a sweep pass iterates a snapshot of the entries taken at its
start (structurally, `runSweepPass` folds over `list(data.items())`).  Over a
fault-free disk with distinct keys the pass never raises; an entry aged
strictly below the retention threshold is kept and its file is untouched; an
expired entry is removed, with its backing file deleted exactly once when
present; and an expired entry whose file is already absent is removed without
error and without any delete. -/
theorem sweep_pass_retention (now after : Nat) (data : List (String × Nat))
    (fs : CFS) (hnodup : (data.map Prod.fst).Nodup)
    (hfault : ∀ p, fs p ≠ FileState.present false) :
    (∀ err : SweepError, runSweepPass now after data fs ≠ Except.error err) ∧
    (∀ st', runSweepPass now after data fs = Except.ok st' →
      ∀ e ∈ data,
        (now - e.2 < after →
          e ∈ st'.data ∧
          st'.fs (join DATA_FOLDER e.1) = fs (join DATA_FOLDER e.1)) ∧
        (after < now - e.2 →
          (∀ x ∈ st'.data, x.1 ≠ e.1) ∧
          st'.fs (join DATA_FOLDER e.1) = FileState.absent ∧
          (fs (join DATA_FOLDER e.1) ≠ FileState.absent →
            st'.deleted.count (join DATA_FOLDER e.1) = 1) ∧
          (fs (join DATA_FOLDER e.1) = FileState.absent →
            st'.deleted.count (join DATA_FOLDER e.1) = 0))) := by
  constructor
  · intro err herr
    obtain ⟨st', hok, _⟩ := sweepPass_ok now after data ⟨data, fs, []⟩ hfault
    unfold runSweepPass at herr
    rw [hok] at herr
    cases herr
  · intro st' hpass e he
    unfold runSweepPass at hpass
    constructor
    · intro hfresh
      constructor
      · refine sweepPass_data_mem now after data ⟨data, fs, []⟩ st' hpass e he ?_
        intro x hx hxexp hxk
        have hxe := nodup_key_eq data hnodup x hx e he hxk
        subst hxe
        omega
      · refine sweepPass_fs_untouched now after data ⟨data, fs, []⟩ st' hpass _ ?_
        intro x hx hxexp hxp
        have hk := join_inj x.1 e.1 hxp
        have hxe := nodup_key_eq data hnodup x hx e he hk
        subst hxe
        omega
    · intro hexp
      obtain ⟨pre, post, hsplit⟩ := List.append_of_mem he
      subst hsplit
      have hkeys := hnodup
      rw [List.map_append, List.map_cons] at hkeys
      obtain ⟨hpreN, hconsN, hdisj⟩ := List.nodup_append.mp hkeys
      obtain ⟨hnotpost, hpostN⟩ := List.nodup_cons.mp hconsN
      have hnotpre : e.1 ∉ pre.map Prod.fst :=
        fun hmem => hdisj hmem (List.mem_cons_self _ _)
      obtain ⟨st1, hpre, hfault1⟩ :=
        sweepPass_ok now after pre ⟨pre ++ e :: post, fs, []⟩ hfault
      have hpass2 : sweepPass now after (e :: post) st1 = Except.ok st' := by
        rw [← hpass, sweepPass_append now after pre (e :: post), hpre]
      have hpath1 : st1.fs (join DATA_FOLDER e.1) =
          fs (join DATA_FOLDER e.1) := by
        refine sweepPass_fs_untouched now after pre _ st1 hpre _ ?_
        intro x hx hxexp hxp
        apply hnotpre
        rw [← join_inj x.1 e.1 hxp]
        exact List.mem_map_of_mem Prod.fst hx
      have hcnt1 : st1.deleted.count (join DATA_FOLDER e.1) = 0 := by
        refine Eq.trans (sweepPass_deleted_count now after pre _ st1 hpre
          (join DATA_FOLDER e.1) ?_) ?_
        · intro x hx hxexp hxp
          apply hnotpre
          rw [← join_inj x.1 e.1 hxp]
          exact List.mem_map_of_mem Prod.fst hx
        · rfl
      have hnodup1 : (st1.data.map Prod.fst).Nodup := by
        have hsub := (sweepPass_data_sublist now after pre _ st1 hpre).map
          Prod.fst
        rw [List.map_append, List.map_cons] at hsub
        exact List.Nodup.sublist hsub hkeys
      cases hfs : fs (join DATA_FOLDER e.1) with
      | absent =>
        have hstep := sweepEntry_expired_absent now after st1 e hexp
          (by rw [hpath1, hfs])
        have hpass3 : sweepPass now after post
            ⟨popKey st1.data e.1, st1.fs, st1.deleted⟩ = Except.ok st' := by
          rw [← hpass2, sweepPass_cons, hstep]
        have hkey2 : ∀ x ∈ popKey st1.data e.1, x.1 ≠ e.1 :=
          popKey_keys e.1 st1.data hnodup1
        have hsub3 := sweepPass_data_sublist now after post _ st' hpass3
        have hkeyfinal : ∀ x ∈ st'.data, x.1 ≠ e.1 := fun x hx =>
          hkey2 x (hsub3.subset hx)
        have habs3 : st'.fs (join DATA_FOLDER e.1) = FileState.absent := by
          refine sweepPass_fs_absent now after post _ st' hpass3 _ ?_
          show st1.fs (join DATA_FOLDER e.1) = FileState.absent
          rw [hpath1, hfs]
        have hcntfinal : st'.deleted.count (join DATA_FOLDER e.1) = 0 := by
          refine Eq.trans (sweepPass_deleted_count now after post _ st' hpass3
            (join DATA_FOLDER e.1) ?_) ?_
          · intro x hx hxexp hxp
            apply hnotpost
            rw [← join_inj x.1 e.1 hxp]
            exact List.mem_map_of_mem Prod.fst hx
          · exact hcnt1
        exact ⟨hkeyfinal, habs3, fun hne => absurd rfl hne,
          fun _ => hcntfinal⟩
      | present b =>
        have hb : b = true := by
          cases b with
          | true => rfl
          | false => exact absurd hfs (hfault _)
        subst hb
        have hstep := sweepEntry_expired_present now after st1 e hexp
          (by rw [hpath1, hfs])
        have hpass3 : sweepPass now after post
            ⟨popKey st1.data e.1,
             fun q => if q = join DATA_FOLDER e.1 then FileState.absent
               else st1.fs q,
             st1.deleted ++ [join DATA_FOLDER e.1]⟩ = Except.ok st' := by
          rw [← hpass2, sweepPass_cons, hstep]
        have hkey2 : ∀ x ∈ popKey st1.data e.1, x.1 ≠ e.1 :=
          popKey_keys e.1 st1.data hnodup1
        have hsub3 := sweepPass_data_sublist now after post _ st' hpass3
        have hkeyfinal : ∀ x ∈ st'.data, x.1 ≠ e.1 := fun x hx =>
          hkey2 x (hsub3.subset hx)
        have habs3 : st'.fs (join DATA_FOLDER e.1) = FileState.absent := by
          refine sweepPass_fs_absent now after post _ st' hpass3 _ ?_
          show (if join DATA_FOLDER e.1 = join DATA_FOLDER e.1
            then FileState.absent
            else st1.fs (join DATA_FOLDER e.1)) = FileState.absent
          rw [if_pos rfl]
        have hcnt2 : (st1.deleted ++ [join DATA_FOLDER e.1]).count
            (join DATA_FOLDER e.1) = 1 := by
          rw [List.count_append, hcnt1]
          simp [List.count_singleton]
        have hcntfinal : st'.deleted.count (join DATA_FOLDER e.1) = 1 := by
          refine Eq.trans (sweepPass_deleted_count now after post _ st' hpass3
            (join DATA_FOLDER e.1) ?_) ?_
          · intro x hx hxexp hxp
            apply hnotpost
            rw [← join_inj x.1 e.1 hxp]
            exact List.mem_map_of_mem Prod.fst hx
          · exact hcnt2
        refine ⟨hkeyfinal, habs3, fun _ => hcntfinal, fun habs => ?_⟩
        cases habs

/-- Witness for C5: one expired entry with a present, deletable file — the
pass does not raise, the entry is gone, the file is deleted exactly once. -/
theorem sweep_pass_retention_witness :
    runSweepPass 4000 3000 [("a", 0)] cfsOne ≠
      Except.error SweepError.permissionDenied ∧
    ((∀ x ∈ stSweptA.data, x.1 ≠ "a") ∧
     stSweptA.fs (join DATA_FOLDER "a") = FileState.absent ∧
     (cfsOne (join DATA_FOLDER "a") ≠ FileState.absent →
       stSweptA.deleted.count (join DATA_FOLDER "a") = 1) ∧
     (cfsOne (join DATA_FOLDER "a") = FileState.absent →
       stSweptA.deleted.count (join DATA_FOLDER "a") = 0)) := by
  have h := sweep_pass_retention 4000 3000 [("a", 0)] cfsOne (by decide)
    (by
      intro p
      show (if p = join DATA_FOLDER "a" then FileState.present true
        else FileState.absent) ≠ FileState.present false
      by_cases hq : p = join DATA_FOLDER "a"
      · rw [if_pos hq]
        intro hc
        cases hc
      · rw [if_neg hq]
        intro hc
        cases hc)
  exact ⟨h.1 SweepError.permissionDenied,
    (h.2 stSweptA rfl ("a", 0) (List.mem_cons_self _ _)).2 (by decide)⟩

/-- Counterexample to claim C6: with two expired entries whose first file
raises on delete (a permission error), the sweep pass aborts with the escaped
exception — the second entry is never processed, and in the source only
`KeyboardInterrupt` is caught, so the exception also terminates the sweep
loop itself. -/
theorem sweep_delete_failure_aborts_pass :
    runSweepPass 4000 3000 [("a", 0), ("b", 0)] cfsPerm =
      Except.error SweepError.permissionDenied := by rfl

/-- Claim C6 as amended: an expired entry whose file is already missing does
not abort the pass — the existence check skips the delete and the pass
continues with the remaining entries — but an exception raised by the delete
itself (e.g. a permission error) propagates, aborting the rest of the pass
(and, as only `KeyboardInterrupt` is caught, the sweep loop). -/
theorem sweep_missing_file_continues_but_delete_failure_aborts
    (now after : Nat) (e : String × Nat) (rest : List (String × Nat))
    (st : SweepState) :
    (after < now - e.2 → st.fs (join DATA_FOLDER e.1) = FileState.absent →
      sweepPass now after (e :: rest) st =
        sweepPass now after rest ⟨popKey st.data e.1, st.fs, st.deleted⟩) ∧
    (∀ err : SweepError, sweepEntry now after st e = Except.error err →
      sweepPass now after (e :: rest) st = Except.error err) := by
  constructor
  · intro hexp habs
    rw [sweepPass_cons, sweepEntry_expired_absent now after st e hexp habs]
  · intro err herr
    rw [sweepPass_cons, herr]

/-- Witness for the amended C6: the pass over an expired entry whose file is
already absent continues with the remaining snapshot entries. -/
theorem sweep_missing_file_continues_witness :
    sweepPass 4000 3000 [("a", 0), ("b", 0)] stAbsentA =
      sweepPass 4000 3000 [("b", 0)]
        ⟨popKey stAbsentA.data "a", stAbsentA.fs, stAbsentA.deleted⟩ :=
  (sweep_missing_file_continues_but_delete_failure_aborts 4000 3000 ("a", 0)
    [("b", 0)] stAbsentA).1 (by decide) rfl

end YouCube
